import Mathlib

/-!
Verification of the cluster resolution layer and spotguide provisioning
pipeline of the repository, via a shallow embedding of the Go sources in
Lean 4. Go strings and byte slices are modelled as lists of characters;
external I/O collaborators (database, hosting service, secret store) are
modelled as explicit state or parameters; fallible code returns Option or
Except.
-/

namespace Pipeline

/-! ## Path splitting (Go strings.SplitN(s, "/", 2)) -/

/-- Helper for Go strings.SplitN with separator "/" and n = 2: returns the
part before the first slash together with the part after it, when a slash
is present. -/
def splitFirstSlash : List Char → List Char × Option (List Char)
  | [] => ([], none)
  | c :: cs =>
    if c = '/' then ([], some cs)
    else
      let p := splitFirstSlash cs
      (c :: p.1, p.2)

/-- Go strings.SplitN(s, "/", 2): a one element list when s has no slash,
otherwise the part before the first slash and the rest. -/
def splitN2 (s : List Char) : List (List Char) :=
  match splitFirstSlash s with
  | (h, none) => [h]
  | (h, some t) => [h, t]

theorem splitFirstSlash_isSome_iff (s : List Char) :
    (splitFirstSlash s).2.isSome ↔ '/' ∈ s := by
  induction s with
  | nil => simp [splitFirstSlash]
  | cons c cs ih =>
    by_cases h : c = '/'
    · simp [splitFirstSlash, h]
    · simp [splitFirstSlash, h, ih, Ne.symm h]

example : splitN2 "X/a/b.txt".data = ["X".data, "a/b.txt".data] := by decide

example : (splitN2 "noslash".data).get? 1 = none := by decide

theorem splitN2_get1 (s : List Char) :
    (splitN2 s).get? 1 = (splitFirstSlash s).2 := by
  unfold splitN2
  rcases h : splitFirstSlash s with ⟨a, b⟩
  cases b <;> simp

theorem splitFirstSlash_append (seg rest : List Char) (h : ('/' : Char) ∉ seg) :
    splitFirstSlash (seg ++ '/' :: rest) = (seg, some rest) := by
  induction seg with
  | nil => simp [splitFirstSlash]
  | cons c cs ih =>
    simp only [List.mem_cons, not_or] at h
    simp [splitFirstSlash, Ne.symm h.1, ih h.2]

/-! ## Content materializer (spotguide/spotguide.go, getSpotguideContent) -/

/-- Fixed descriptor path constant PipelineYAMLPath from spotguide.go. -/
def PipelineYAMLPath : List Char := ".banzaicloud/pipeline.yaml".data

/-- The value the stripped path is actually compared against on line 284 of
spotguide.go: PipelineYAMLPath with the literal "disabled" appended. -/
def pipelineYAMLPathDisabled : List Char := PipelineYAMLPath ++ "disabled".data

/-- A zip archive entry as seen by the extraction loop: its name, whether
it is a directory entry, and its byte content (bytes as characters). -/
structure ZipFile where
  name : List Char
  isDir : Bool
  content : List Char
deriving DecidableEq

/-- The github.TreeEntry fields populated by getSpotguideContent. -/
structure TreeEntry where
  type : List Char
  path : List Char
  content : List Char
  mode : List Char
deriving DecidableEq

/-- Failures of the pure extraction loop: the panic from the out of bounds
index access on a slashless entry name, and an error returned by
preparePipelineYAML. -/
inductive ContentError
  | indexOutOfRange
  | prepareFailed
deriving DecidableEq

/-- Entry type constant: every produced entry is a blob. -/
def blobType : List Char := "blob".data

/-- Entry mode constant: every produced entry has mode 100644. -/
def fileMode : List Char := "100644".data

/-- The extraction loop of getSpotguideContent over the parsed archive:
directory entries are skipped; for a file entry the destination path is
element 1 of a two way split of its name on the slash; content is passed
through preparePipelineYAML (modelled by the parameter prepare, whose YAML
round trip lives in an external library) only when the stripped path equals
pipelineYAMLPathDisabled, and is used verbatim otherwise. -/
def getSpotguideContent (prepare : List Char → Option (List Char)) :
    List ZipFile → Except ContentError (List TreeEntry)
  | [] => .ok []
  | zf :: rest =>
    if zf.isDir then
      getSpotguideContent prepare rest
    else
      match (splitN2 zf.name).get? 1 with
      | none => .error .indexOutOfRange
      | some path =>
        match (if path = pipelineYAMLPathDisabled then
                 match prepare zf.content with
                 | none => Except.error ContentError.prepareFailed
                 | some c => Except.ok c
               else Except.ok zf.content) with
        | .error e => .error e
        | .ok content =>
          match getSpotguideContent prepare rest with
          | .error e => .error e
          | .ok entries => .ok (TreeEntry.mk blobType path content fileMode :: entries)

/-- Destination path of a file entry name: the remainder after the first
slash (defaulting to the empty path when the name has no slash, a case in
which the loop itself fails instead). -/
def strippedPath (name : List Char) : List Char :=
  ((splitN2 name).get? 1).getD []

theorem strippedPath_append (seg rest : List Char) (h : ('/' : Char) ∉ seg) :
    strippedPath (seg ++ '/' :: rest) = rest := by
  unfold strippedPath
  rw [splitN2_get1, splitFirstSlash_append seg rest h]
  rfl

theorem splitN2_get1_of_mem (s : List Char) (h : ('/' : Char) ∈ s) :
    (splitN2 s).get? 1 = some (strippedPath s) := by
  have h2 := (splitFirstSlash_isSome_iff s).mpr h
  rcases h3 : (splitFirstSlash s).2 with _ | t
  · rw [h3] at h2; simp at h2
  · unfold strippedPath
    rw [splitN2_get1, h3]
    rfl

theorem splitN2_getElem1_of_mem (s : List Char) (h : ('/' : Char) ∈ s) :
    (splitN2 s)[1]? = some (strippedPath s) := by
  simpa using splitN2_get1_of_mem s h

theorem getSpotguideContent_cons_dir (prepare : List Char → Option (List Char))
    (zf : ZipFile) (rest : List ZipFile) (h : zf.isDir = true) :
    getSpotguideContent prepare (zf :: rest) = getSpotguideContent prepare rest := by
  simp [getSpotguideContent, h]

theorem getSpotguideContent_cons_file (prepare : List Char → Option (List Char))
    (zf : ZipFile) (rest : List ZipFile) (hd : zf.isDir = false)
    (hs : ('/' : Char) ∈ zf.name)
    (hnd : strippedPath zf.name ≠ pipelineYAMLPathDisabled) :
    getSpotguideContent prepare (zf :: rest) =
      match getSpotguideContent prepare rest with
      | .error e => .error e
      | .ok entries =>
          .ok (TreeEntry.mk blobType (strippedPath zf.name) zf.content fileMode :: entries) := by
  simp [getSpotguideContent, hd, splitN2_getElem1_of_mem zf.name hs, hnd]

theorem getSpotguideContent_cons_file_rewrite (prepare : List Char → Option (List Char))
    (zf : ZipFile) (rest : List ZipFile) (hd : zf.isDir = false)
    (hs : ('/' : Char) ∈ zf.name)
    (hnd : strippedPath zf.name = pipelineYAMLPathDisabled)
    (c : List Char) (hp : prepare zf.content = some c) :
    getSpotguideContent prepare (zf :: rest) =
      match getSpotguideContent prepare rest with
      | .error e => .error e
      | .ok entries =>
          .ok (TreeEntry.mk blobType (strippedPath zf.name) c fileMode :: entries) := by
  simp [getSpotguideContent, hd, splitN2_getElem1_of_mem zf.name hs, hnd, hp]

theorem getSpotguideContent_cons_file_prepErr (prepare : List Char → Option (List Char))
    (zf : ZipFile) (rest : List ZipFile) (hd : zf.isDir = false)
    (hs : ('/' : Char) ∈ zf.name)
    (hnd : strippedPath zf.name = pipelineYAMLPathDisabled)
    (hp : prepare zf.content = none) :
    getSpotguideContent prepare (zf :: rest) = .error .prepareFailed := by
  simp [getSpotguideContent, hd, splitN2_getElem1_of_mem zf.name hs, hnd, hp]

/-- Characterization of the loop on archives where every file name has a
slash and no stripped path hits the rewrite guard: every file entry is
emitted verbatim, directories are skipped. -/
theorem getSpotguideContent_verbatim (prepare : List Char → Option (List Char)) :
    ∀ files : List ZipFile,
    (∀ zf ∈ files, zf.isDir = false → ('/' : Char) ∈ zf.name) →
    (∀ zf ∈ files, zf.isDir = false → strippedPath zf.name ≠ pipelineYAMLPathDisabled) →
    getSpotguideContent prepare files =
      .ok ((files.filter (fun zf => !zf.isDir)).map
        (fun zf => TreeEntry.mk blobType (strippedPath zf.name) zf.content fileMode))
  | [], _, _ => by simp [getSpotguideContent]
  | zf :: rest, hs, hnd => by
    have ih := getSpotguideContent_verbatim prepare rest
      (fun z hz => hs z (List.mem_cons_of_mem _ hz))
      (fun z hz => hnd z (List.mem_cons_of_mem _ hz))
    rcases hd : zf.isDir with _ | _
    · rw [getSpotguideContent_cons_file prepare zf rest hd
        (hs zf (List.mem_cons_self _ _) hd) (hnd zf (List.mem_cons_self _ _) hd), ih]
      simp [hd]
    · rw [getSpotguideContent_cons_dir prepare zf rest hd, ih]
      simp [hd]

/-- Path projection of the loop: when every file name has a slash and the
preparation function is total, the produced destination paths are exactly
the stripped names of the file entries, in archive order. -/
theorem getSpotguideContent_paths (prepare : List Char → Option (List Char))
    (hp : ∀ c, (prepare c).isSome) :
    ∀ files : List ZipFile,
    (∀ zf ∈ files, zf.isDir = false → ('/' : Char) ∈ zf.name) →
    (getSpotguideContent prepare files).map (List.map TreeEntry.path) =
      .ok ((files.filter (fun zf => !zf.isDir)).map (fun zf => strippedPath zf.name))
  | [], _ => by simp [getSpotguideContent, Except.map]
  | zf :: rest, hs => by
    have ih := getSpotguideContent_paths prepare hp rest
      (fun z hz => hs z (List.mem_cons_of_mem _ hz))
    rcases hd : zf.isDir with _ | _
    · have hsz := hs zf (List.mem_cons_self _ _) hd
      by_cases hnd : strippedPath zf.name = pipelineYAMLPathDisabled
      · rcases hc : prepare zf.content with _ | c
        · have hsome := hp zf.content
          rw [hc] at hsome
          simp at hsome
        · rw [getSpotguideContent_cons_file_rewrite prepare zf rest hd hsz hnd c hc]
          rcases hr : getSpotguideContent prepare rest with e | entries
          · rw [hr] at ih
            simp [Except.map] at ih
          · rw [hr] at ih
            have ih2 : List.map TreeEntry.path entries =
                (rest.filter (fun zf => !zf.isDir)).map (fun zf => strippedPath zf.name) := by
              simpa [Except.map] using ih
            simp [Except.map, hd, ih2]
      · rw [getSpotguideContent_cons_file prepare zf rest hd hsz hnd]
        rcases hr : getSpotguideContent prepare rest with e | entries
        · rw [hr] at ih
          simp [Except.map] at ih
        · rw [hr] at ih
          have ih2 : List.map TreeEntry.path entries =
              (rest.filter (fun zf => !zf.isDir)).map (fun zf => strippedPath zf.name) := by
            simpa [Except.map] using ih
          simp [Except.map, hd, ih2]
    · rw [getSpotguideContent_cons_dir prepare zf rest hd, ih]
      simp [hd]

/-- Under the slash precondition the loop never reaches the out of bounds
index access. -/
theorem getSpotguideContent_ne_oob (prepare : List Char → Option (List Char)) :
    ∀ files : List ZipFile,
    (∀ zf ∈ files, zf.isDir = false → ('/' : Char) ∈ zf.name) →
    getSpotguideContent prepare files ≠ .error .indexOutOfRange
  | [], _ => by simp [getSpotguideContent]
  | zf :: rest, hs => by
    have ih := getSpotguideContent_ne_oob prepare rest
      (fun z hz => hs z (List.mem_cons_of_mem _ hz))
    rcases hd : zf.isDir with _ | _
    · have hsz := hs zf (List.mem_cons_self _ _) hd
      by_cases hnd : strippedPath zf.name = pipelineYAMLPathDisabled
      · rcases hc : prepare zf.content with _ | c
        · rw [getSpotguideContent_cons_file_prepErr prepare zf rest hd hsz hnd hc]
          simp
        · rw [getSpotguideContent_cons_file_rewrite prepare zf rest hd hsz hnd c hc]
          rcases hr : getSpotguideContent prepare rest with e | entries
          · rw [hr] at ih
            simpa using ih
          · simp
      · rw [getSpotguideContent_cons_file prepare zf rest hd hsz hnd]
        rcases hr : getSpotguideContent prepare rest with e | entries
        · rw [hr] at ih
          simpa using ih
        · simp
    · rw [getSpotguideContent_cons_dir prepare zf rest hd]
      exact ih

instance {ε α : Type} [DecidableEq ε] [DecidableEq α] : DecidableEq (Except ε α) := fun
  | .error a, .error b =>
    match decEq a b with
    | isTrue h => isTrue (h ▸ rfl)
    | isFalse h => isFalse fun hh => h (Except.error.inj hh)
  | .error _, .ok _ => isFalse fun hh => Except.noConfusion hh
  | .ok _, .error _ => isFalse fun hh => Except.noConfusion hh
  | .ok a, .ok b =>
    match decEq a b with
    | isTrue h => isTrue (h ▸ rfl)
    | isFalse h => isFalse fun hh => h (Except.ok.inj hh)

/-- C1 counterexample: an archive holding the CI descriptor at its stripped
path .banzaicloud/pipeline.yaml, processed with a preparation function that
would replace the content (standing for a launch request with a non empty
secret list), still emits the file content verbatim: the rewrite branch is
dead for this path, so the claim as stated is false. -/
theorem C1_counterexample :
    getSpotguideContent (fun _ => some "secrets injected".data)
      [ZipFile.mk "wrapper/.banzaicloud/pipeline.yaml".data false "original pipeline".data] =
      .ok [TreeEntry.mk blobType PipelineYAMLPath "original pipeline".data fileMode] := by
  decide

/-- C1 (amended): the content materializer emits every file content byte
identical to the archive, the CI descriptor included; the rewrite branch can
only trigger on the path PipelineYAMLPath with the literal disabled appended,
which differs from the descriptor path itself. -/
theorem C1_descriptor_emitted_verbatim :
    (∀ (prepare : List Char → Option (List Char)) (files : List ZipFile),
      (∀ zf ∈ files, zf.isDir = false → ('/' : Char) ∈ zf.name) →
      (∀ zf ∈ files, zf.isDir = false → strippedPath zf.name ≠ pipelineYAMLPathDisabled) →
      getSpotguideContent prepare files =
        .ok ((files.filter (fun zf => !zf.isDir)).map
          (fun zf => TreeEntry.mk blobType (strippedPath zf.name) zf.content fileMode)))
  ∧ PipelineYAMLPath ≠ pipelineYAMLPathDisabled :=
  ⟨fun prepare => getSpotguideContent_verbatim prepare, by decide⟩

/-- Witness for C1: the amended theorem applied to a concrete archive. -/
theorem C1_witness :
    getSpotguideContent (fun _ => some "x".data)
      [ZipFile.mk "w/.banzaicloud/pipeline.yaml".data false "body".data] =
      .ok [TreeEntry.mk blobType PipelineYAMLPath "body".data fileMode] := by
  have h := C1_descriptor_emitted_verbatim.1 (fun _ => some "x".data)
    [ZipFile.mk "w/.banzaicloud/pipeline.yaml".data false "body".data]
    (by decide) (by decide)
  rw [h]
  decide

/-- C7 counterexample: two archive file entries whose names strip to the
same destination path are both returned with identical paths and the call
succeeds, instead of failing with a content extraction error. -/
theorem C7_counterexample :
    getSpotguideContent (fun c => some c)
      [ZipFile.mk "X/a".data false "1".data, ZipFile.mk "Y/a".data false "2".data] =
      .ok [TreeEntry.mk blobType "a".data "1".data fileMode,
           TreeEntry.mk blobType "a".data "2".data fileMode] ∧
    (TreeEntry.mk blobType "a".data "1".data fileMode).path =
      (TreeEntry.mk blobType "a".data "2".data fileMode).path :=
  ⟨by decide, rfl⟩

/-- C7 (amended): the materializer performs no destination path uniqueness
check: two file entries mapping to the same stripped path both become tree
entries with that same path, and the operation succeeds. -/
theorem C7_collision_entries_both_returned :
    ∀ (prepare : List Char → Option (List Char)) (seg1 seg2 rest c1 c2 : List Char),
    ('/' : Char) ∉ seg1 → ('/' : Char) ∉ seg2 → rest ≠ pipelineYAMLPathDisabled →
    getSpotguideContent prepare
      [ZipFile.mk (seg1 ++ '/' :: rest) false c1, ZipFile.mk (seg2 ++ '/' :: rest) false c2] =
      .ok [TreeEntry.mk blobType rest c1 fileMode, TreeEntry.mk blobType rest c2 fileMode] := by
  intro prepare seg1 seg2 rest c1 c2 h1 h2 h3
  have hv := getSpotguideContent_verbatim prepare
    [ZipFile.mk (seg1 ++ '/' :: rest) false c1, ZipFile.mk (seg2 ++ '/' :: rest) false c2]
    (by
      intro zf hz _
      simp only [List.mem_cons, List.not_mem_nil, or_false] at hz
      rcases hz with rfl | rfl <;> simp)
    (by
      intro zf hz _
      simp only [List.mem_cons, List.not_mem_nil, or_false] at hz
      rcases hz with rfl | rfl <;>
        simp [strippedPath_append seg1 rest h1, strippedPath_append seg2 rest h2, h3])
  simpa [strippedPath_append seg1 rest h1, strippedPath_append seg2 rest h2] using hv

/-- Witness for C7: the amended theorem applied to a concrete collision. -/
theorem C7_witness :
    getSpotguideContent (fun c => some c)
      [ZipFile.mk ("X".data ++ '/' :: "a".data) false "1".data,
       ZipFile.mk ("Y".data ++ '/' :: "a".data) false "2".data] =
      .ok [TreeEntry.mk blobType "a".data "1".data fileMode,
           TreeEntry.mk blobType "a".data "2".data fileMode] :=
  C7_collision_entries_both_returned (fun c => some c) "X".data "Y".data "a".data
    "1".data "2".data (by decide) (by decide) (by decide)

/-- C8: directory entries are skipped and exactly the first path segment of
each file entry name is discarded, the remainder becoming the destination
path. -/
theorem C8_strip_first_segment :
    (∀ (prepare : List Char → Option (List Char)) (files : List ZipFile),
      (∀ zf ∈ files, zf.isDir = false → ('/' : Char) ∈ zf.name) →
      (∀ c, (prepare c).isSome) →
      (getSpotguideContent prepare files).map (List.map TreeEntry.path) =
        .ok ((files.filter (fun zf => !zf.isDir)).map (fun zf => strippedPath zf.name)))
  ∧ (∀ seg rest : List Char, ('/' : Char) ∉ seg → strippedPath (seg ++ '/' :: rest) = rest) :=
  ⟨fun prepare files hs hp => getSpotguideContent_paths prepare hp files hs,
   strippedPath_append⟩

/-- Witness for C8: a directory entry is skipped and a file at X/a/b.txt
yields the single destination path a/b.txt. -/
theorem C8_witness :
    (getSpotguideContent (fun c => some c)
      [ZipFile.mk "X/".data true [], ZipFile.mk "X/a/b.txt".data false "hello".data]).map
        (List.map TreeEntry.path) = .ok ["a/b.txt".data] := by
  have h := C8_strip_first_segment.1 (fun c => some c)
    [ZipFile.mk "X/".data true [], ZipFile.mk "X/a/b.txt".data false "hello".data]
    (by decide) (fun c => by simp)
  rw [h]
  decide

/-- C10: under the precondition that every file entry name in the archive
contains a slash, the element 1 access of the two way split never goes out
of bounds; for an archive with a slashless file entry name it does. -/
theorem C10_split_index_bounds :
    (∀ (prepare : List Char → Option (List Char)) (files : List ZipFile),
      (∀ zf ∈ files, zf.isDir = false → ('/' : Char) ∈ zf.name) →
      getSpotguideContent prepare files ≠ .error .indexOutOfRange)
  ∧ getSpotguideContent (fun c => some c) [ZipFile.mk "noslash".data false []] =
      .error .indexOutOfRange :=
  ⟨fun prepare files hs => getSpotguideContent_ne_oob prepare files hs, by decide⟩

/-- Witness for C10: the bound applied to a concrete archive whose single
file name contains a slash. -/
theorem C10_witness :
    getSpotguideContent (fun c => some c) [ZipFile.mk "X/a".data false []] ≠
      .error .indexOutOfRange :=
  C10_split_index_bounds.1 (fun c => some c) [ZipFile.mk "X/a".data false []] (by decide)

/-! ## Cluster resolution layer (cluster/manager_get.go and the cluster
repository). The database is a list of visible rows (soft deleted rows are
excluded by the persistence layer); the factory GetCommonClusterFromModel
lives outside the sampled sources and is a parameter returning none on a
resolution failure. -/

/-- Persisted cluster record fields used by the sampled code
(model.ClusterModel): primary key, organization scope, name and associated
secret. -/
structure ClusterModel where
  id : Nat
  organizationId : Nat
  name : List Char
  secretId : List Char
deriving DecidableEq

/-- Errors surfaced by the single record read path: the typed not found
condition raised by the repository, and the wrapped factory error. -/
inductive ClusterError
  | notFound (organizationID : Nat)
  | resolutionFailed
deriving DecidableEq

/-- A failure of the underlying fetch, propagated unchanged by the bulk
listing operations. -/
inductive DBError
  | fetchFailed
deriving DecidableEq

namespace Clusters

/-- Clusters.FindByOrganization: all rows of the organization, in stored
order. -/
def FindByOrganization (db : List ClusterModel) (organizationID : Nat) :
    List ClusterModel :=
  db.filter (fun r => r.organizationId == organizationID)

/-- Clusters.All: every row. -/
def All (db : List ClusterModel) : List ClusterModel := db

/-- Clusters.FindBySecret: rows of the organization carrying the secret. -/
def FindBySecret (db : List ClusterModel) (organizationID : Nat)
    (secretID : List Char) : List ClusterModel :=
  db.filter (fun r => r.organizationId == organizationID && r.secretId == secretID)

/-- Clusters.findOneBy: the first row matching the field criteria within the
organization, or the typed not found error; the field and criteria pair of
the source is passed as a predicate. -/
def findOneBy (db : List ClusterModel) (organizationID : Nat)
    (criteria : ClusterModel → Bool) : Except ClusterError ClusterModel :=
  match db.find? (fun r => criteria r && r.organizationId == organizationID) with
  | none => .error (.notFound organizationID)
  | some r => .ok r

/-- Clusters.FindOneByID. -/
def FindOneByID (db : List ClusterModel) (organizationID clusterID : Nat) :
    Except ClusterError ClusterModel :=
  findOneBy db organizationID (fun r => r.id == clusterID)

/-- Clusters.FindOneByName. -/
def FindOneByName (db : List ClusterModel) (organizationID : Nat)
    (clusterName : List Char) : Except ClusterError ClusterModel :=
  findOneBy db organizationID (fun r => r.name == clusterName)

/-- Clusters.Exists: false with no error when no row matches; otherwise the
comparison of the found row primary key with zero, exactly as in the
source. -/
def Exists (db : List ClusterModel) (organizationID : Nat) (name : List Char) :
    Bool :=
  match db.find? (fun r => r.name == name && r.organizationId == organizationID) with
  | none => false
  | some existingCluster => existingCluster.id == 0

end Clusters

/-- The inline per record loop of Manager.GetClusters: a record the factory
cannot resolve is logged and skipped. -/
def GetClustersLoop {C : Type} (fromModel : ClusterModel → Option C) :
    List ClusterModel → List C
  | [] => []
  | clusterModel :: rest =>
    match fromModel clusterModel with
    | none => GetClustersLoop fromModel rest
    | some cluster => cluster :: GetClustersLoop fromModel rest

/-- Manager.GetClusters: propagate a fetch error, then run the skip loop on
the fetched records. -/
def GetClusters {C : Type} (fromModel : ClusterModel → Option C)
    (fetched : Except DBError (List ClusterModel)) : Except DBError (List C) :=
  match fetched with
  | .error e => .error e
  | .ok clusterModels => .ok (GetClustersLoop fromModel clusterModels)

/-- Manager.getClustersFromModels: the identical skip loop shared by
GetAllClusters and GetClustersBySecretID. -/
def getClustersFromModels {C : Type} (fromModel : ClusterModel → Option C) :
    List ClusterModel → List C
  | [] => []
  | clusterModel :: rest =>
    match fromModel clusterModel with
    | none => getClustersFromModels fromModel rest
    | some cluster => cluster :: getClustersFromModels fromModel rest

/-- Manager.GetAllClusters. -/
def GetAllClusters {C : Type} (fromModel : ClusterModel → Option C)
    (fetched : Except DBError (List ClusterModel)) : Except DBError (List C) :=
  match fetched with
  | .error e => .error e
  | .ok clusterModels => .ok (getClustersFromModels fromModel clusterModels)

/-- Manager.GetClustersBySecretID. -/
def GetClustersBySecretID {C : Type} (fromModel : ClusterModel → Option C)
    (fetched : Except DBError (List ClusterModel)) : Except DBError (List C) :=
  match fetched with
  | .error e => .error e
  | .ok clusterModels => .ok (getClustersFromModels fromModel clusterModels)

/-- Manager.GetClusterByID: the single record read path, propagating the
repository error and turning a factory failure into the wrapped resolution
error. -/
def GetClusterByID {C : Type} (fromModel : ClusterModel → Option C)
    (db : List ClusterModel) (organizationID clusterID : Nat) :
    Except ClusterError C :=
  match Clusters.FindOneByID db organizationID clusterID with
  | .error e => .error e
  | .ok clusterModel =>
    match fromModel clusterModel with
    | none => .error .resolutionFailed
    | some cluster => .ok cluster

/-- Manager.GetClusterByName. -/
def GetClusterByName {C : Type} (fromModel : ClusterModel → Option C)
    (db : List ClusterModel) (organizationID : Nat) (clusterName : List Char) :
    Except ClusterError C :=
  match Clusters.FindOneByName db organizationID clusterName with
  | .error e => .error e
  | .ok clusterModel =>
    match fromModel clusterModel with
    | none => .error .resolutionFailed
    | some cluster => .ok cluster

theorem GetClustersLoop_eq_filterMap {C : Type} (fromModel : ClusterModel → Option C) :
    ∀ models : List ClusterModel,
      GetClustersLoop fromModel models = models.filterMap fromModel
  | [] => rfl
  | m :: rest => by
    have ih := GetClustersLoop_eq_filterMap fromModel rest
    rcases h : fromModel m with _ | c <;>
      simp [GetClustersLoop, h, ih, List.filterMap_cons]

theorem getClustersFromModels_eq_filterMap {C : Type}
    (fromModel : ClusterModel → Option C) :
    ∀ models : List ClusterModel,
      getClustersFromModels fromModel models = models.filterMap fromModel
  | [] => rfl
  | m :: rest => by
    have ih := getClustersFromModels_eq_filterMap fromModel rest
    rcases h : fromModel m with _ | c <;>
      simp [getClustersFromModels, h, ih, List.filterMap_cons]

/-- C3: the bulk listing operations succeed on a successful fetch and return
exactly the resolvable records, in fetch order; and injecting one
unresolvable record anywhere leaves the resolved set of the others
unchanged. -/
theorem C3_bulk_listing_skips_unresolvable :
    (∀ {C : Type} (fromModel : ClusterModel → Option C) (models : List ClusterModel),
      GetClusters fromModel (.ok models) = .ok (models.filterMap fromModel)
      ∧ GetAllClusters fromModel (.ok models) = .ok (models.filterMap fromModel)
      ∧ GetClustersBySecretID fromModel (.ok models) = .ok (models.filterMap fromModel))
  ∧ (∀ {C : Type} (fromModel : ClusterModel → Option C)
      (xs ys : List ClusterModel) (bad : ClusterModel), fromModel bad = none →
      (xs ++ bad :: ys).filterMap fromModel = (xs ++ ys).filterMap fromModel) := by
  constructor
  · intro C fromModel models
    exact ⟨by simp [GetClusters, GetClustersLoop_eq_filterMap],
      by simp [GetAllClusters, getClustersFromModels_eq_filterMap],
      by simp [GetClustersBySecretID, getClustersFromModels_eq_filterMap]⟩
  · intro C fromModel xs ys bad h
    simp [List.filterMap_append, List.filterMap_cons, h]

/-- Witness for C3: a record the factory rejects is skipped while the
resolution of the others is unchanged. -/
theorem C3_witness :
    GetClusters (fun r : ClusterModel => if r.id = 0 then none else some r.id)
      (.ok [ClusterModel.mk 1 1 [] [], ClusterModel.mk 0 1 [] [],
            ClusterModel.mk 2 1 [] []]) = .ok [1, 2]
  ∧ List.filterMap (fun r : ClusterModel => if r.id = 0 then none else some r.id)
      ([ClusterModel.mk 1 1 [] []] ++ ClusterModel.mk 0 1 [] [] ::
        [ClusterModel.mk 2 1 [] []]) =
    List.filterMap (fun r : ClusterModel => if r.id = 0 then none else some r.id)
      ([ClusterModel.mk 1 1 [] []] ++ [ClusterModel.mk 2 1 [] []]) := by
  constructor
  · rw [(C3_bulk_listing_skips_unresolvable.1
      (fun r : ClusterModel => if r.id = 0 then none else some r.id) _).1]
    decide
  · exact C3_bulk_listing_skips_unresolvable.2
      (fun r : ClusterModel => if r.id = 0 then none else some r.id)
      [ClusterModel.mk 1 1 [] []] [ClusterModel.mk 2 1 [] []]
      (ClusterModel.mk 0 1 [] []) (by decide)

/-- C4: the single record read paths fail with the typed not found error
when no row matches within the organization, and with the resolution error
when the row exists but the factory cannot build a handle; neither error is
swallowed into a success value. -/
theorem C4_single_lookup_strict :
    ∀ {C : Type} (fromModel : ClusterModel → Option C) (db : List ClusterModel)
      (organizationID clusterID : Nat) (clusterName : List Char),
    ((db.find? (fun r => r.id == clusterID && r.organizationId == organizationID) = none →
        GetClusterByID fromModel db organizationID clusterID =
          .error (.notFound organizationID))
    ∧ (∀ m, db.find? (fun r => r.id == clusterID && r.organizationId == organizationID) =
          some m → fromModel m = none →
        GetClusterByID fromModel db organizationID clusterID = .error .resolutionFailed))
    ∧ ((db.find? (fun r => r.name == clusterName && r.organizationId == organizationID) =
          none →
        GetClusterByName fromModel db organizationID clusterName =
          .error (.notFound organizationID))
    ∧ (∀ m, db.find? (fun r => r.name == clusterName && r.organizationId == organizationID) =
          some m → fromModel m = none →
        GetClusterByName fromModel db organizationID clusterName =
          .error .resolutionFailed)) := by
  intro C fromModel db organizationID clusterID clusterName
  refine ⟨⟨fun h => ?_, fun m hm hf => ?_⟩, ⟨fun h => ?_, fun m hm hf => ?_⟩⟩
  · simp [GetClusterByID, Clusters.FindOneByID, Clusters.findOneBy, h]
  · simp [GetClusterByID, Clusters.FindOneByID, Clusters.findOneBy, hm, hf]
  · simp [GetClusterByName, Clusters.FindOneByName, Clusters.findOneBy, h]
  · simp [GetClusterByName, Clusters.FindOneByName, Clusters.findOneBy, hm, hf]

/-- Witness for C4: a missing row yields the not found error and a present
but unresolvable row yields the resolution error, for both lookups. -/
theorem C4_witness :
    GetClusterByID (fun _ : ClusterModel => (none : Option Nat))
      [ClusterModel.mk 7 1 "c".data []] 1 9 = .error (.notFound 1)
  ∧ GetClusterByID (fun _ : ClusterModel => (none : Option Nat))
      [ClusterModel.mk 7 1 "c".data []] 1 7 = .error .resolutionFailed
  ∧ GetClusterByName (fun _ : ClusterModel => (none : Option Nat))
      [ClusterModel.mk 7 1 "c".data []] 1 "d".data = .error (.notFound 1)
  ∧ GetClusterByName (fun _ : ClusterModel => (none : Option Nat))
      [ClusterModel.mk 7 1 "c".data []] 1 "c".data = .error .resolutionFailed := by
  refine ⟨?_, ?_, ?_, ?_⟩
  · exact (C4_single_lookup_strict (fun _ => none) [ClusterModel.mk 7 1 "c".data []]
      1 9 "d".data).1.1 (by decide)
  · exact (C4_single_lookup_strict (fun _ => none) [ClusterModel.mk 7 1 "c".data []]
      1 7 "d".data).1.2 (ClusterModel.mk 7 1 "c".data []) (by decide) rfl
  · exact (C4_single_lookup_strict (fun _ => none) [ClusterModel.mk 7 1 "c".data []]
      1 9 "d".data).2.1 (by decide)
  · exact (C4_single_lookup_strict (fun _ => none) [ClusterModel.mk 7 1 "c".data []]
      1 9 "c".data).2.2 (ClusterModel.mk 7 1 "c".data []) (by decide) rfl

/-- C9: Clusters.Exists is false when no row matches the name within the
organization; on a match it is true exactly when the found row primary key
is zero, hence false for every row with a nonzero key. -/
theorem C9_exists_compares_id_with_zero :
    ∀ (db : List ClusterModel) (organizationID : Nat) (name : List Char),
    (db.find? (fun r => r.name == name && r.organizationId == organizationID) = none →
      Clusters.Exists db organizationID name = false)
  ∧ (∀ r, db.find? (fun r => r.name == name && r.organizationId == organizationID) =
        some r → (Clusters.Exists db organizationID name = true ↔ r.id = 0))
  ∧ (∀ r, db.find? (fun r => r.name == name && r.organizationId == organizationID) =
        some r → r.id ≠ 0 → Clusters.Exists db organizationID name = false) := by
  intro db organizationID name
  refine ⟨fun h => ?_, fun r hr => ?_, fun r hr hne => ?_⟩
  · simp [Clusters.Exists, h]
  · simp [Clusters.Exists, hr]
  · simp [Clusters.Exists, hr, hne]

/-- Witness for C9: a persisted row with nonzero primary key makes Exists
report false even though the row is found. -/
theorem C9_witness :
    Clusters.Exists [ClusterModel.mk 42 1 "prod".data []] 1 "prod".data = false :=
  (C9_exists_compares_id_with_zero [ClusterModel.mk 42 1 "prod".data []] 1
    "prod".data).2.2 (ClusterModel.mk 42 1 "prod".data []) (by decide) (by decide)

/-! ## Spotguide scraper (spotguide/spotguide.go, ScrapeSpotguides). The
persisted spotguide_repos table is a list of rows; the hosting service
manifest download is a parameter, returning none on any error, which aborts
the whole scrape. -/

/-- Persisted spotguide_repos row fields the scraper writes: full repository
name and raw manifest bytes. -/
structure Repo where
  name : List Char
  spotguideRaw : List Char
deriving DecidableEq

/-- A repository as listed from the hosting organization: full name and
topic tags. -/
structure GithubRepository where
  fullName : List Char
  topics : List (List Char)
deriving DecidableEq

/-- Topic tag marking template repositories. -/
def SpotguideGithubTopic : List Char := "spotguide".data

/-- GORM blank test for a field: a field equal to its zero value is ignored
both by a struct Where and by Assign; both row fields here are byte lists,
blank when empty. -/
def gormBlank (field : List Char) : Bool := field == []

/-- The struct Where condition of the upsert call in the scraper: a row
matches when every nonblank field of the model equals the row field. The
raw manifest bytes are part of the model and hence of the condition. -/
def gormStructCond (model : Repo) (r : Repo) : Bool :=
  (gormBlank model.name || r.name == model.name) &&
  (gormBlank model.spotguideRaw || r.spotguideRaw == model.spotguideRaw)

/-- Assign: overwrite the nonblank fields of the model onto the row. -/
def gormAssign (model : Repo) (r : Repo) : Repo :=
  { name := if gormBlank model.name then r.name else model.name,
    spotguideRaw :=
      if gormBlank model.spotguideRaw then r.spotguideRaw else model.spotguideRaw }

/-- db.Where(model).Assign(model).FirstOrCreate: update the first matching
row with the assigned attributes and save it, or create a new row from the
condition and assigned attributes. -/
def firstOrCreate (model : Repo) : List Repo → List Repo
  | [] => [model]
  | r :: rest =>
    if gormStructCond model r then gormAssign model r :: rest
    else r :: firstOrCreate model rest

/-- ScrapeSpotguides after the pagination loop has gathered the repository
list: every repository carrying the template topic has its manifest
downloaded and upserted; a download failure aborts the entire scrape. -/
def ScrapeSpotguides (download : GithubRepository → Option (List Char)) :
    List GithubRepository → List Repo → Option (List Repo)
  | [], db => some db
  | repository :: rest, db =>
    if repository.topics.any (fun topic => topic == SpotguideGithubTopic) then
      match download repository with
      | none => none
      | some spotguideRaw =>
        ScrapeSpotguides download rest
          (firstOrCreate (Repo.mk repository.fullName spotguideRaw) db)
    else ScrapeSpotguides download rest db

theorem gormStructCond_self (m : Repo) : gormStructCond m m = true := by
  simp [gormStructCond]

theorem gormAssign_of_cond (model r : Repo) (h : gormStructCond model r = true) :
    gormAssign model r = r := by
  unfold gormStructCond at h
  simp only [Bool.and_eq_true, Bool.or_eq_true, beq_iff_eq] at h
  rcases r with ⟨rn, rr⟩
  unfold gormAssign
  simp only [Repo.mk.injEq]
  constructor
  · by_cases hb : gormBlank model.name = true
    · simp [hb]
    · rcases h.1 with hb2 | he
      · exact absurd hb2 hb
      · simp at he
        simp [hb, ← he]
  · by_cases hb : gormBlank model.spotguideRaw = true
    · simp [hb]
    · rcases h.2 with hb2 | he
      · exact absurd hb2 hb
      · simp at he
        simp [hb, ← he]

theorem firstOrCreate_of_any (m : Repo) :
    ∀ db : List Repo, db.any (gormStructCond m) = true → firstOrCreate m db = db
  | [], h => by simp at h
  | r :: rest, h => by
    rcases hc : gormStructCond m r with _ | _
    · have hrest : rest.any (gormStructCond m) = true := by
        simpa [List.any_cons, hc] using h
      simp [firstOrCreate, hc, firstOrCreate_of_any m rest hrest]
    · simp [firstOrCreate, hc, gormAssign_of_cond m r hc]

theorem firstOrCreate_of_not_any (m : Repo) :
    ∀ db : List Repo, db.any (gormStructCond m) = false →
      firstOrCreate m db = db ++ [m]
  | [], _ => rfl
  | r :: rest, h => by
    rw [List.any_cons, Bool.or_eq_false_iff] at h
    simp [firstOrCreate, h.1, firstOrCreate_of_not_any m rest h.2]

theorem firstOrCreate_any_self (m : Repo) (db : List Repo) :
    (firstOrCreate m db).any (gormStructCond m) = true := by
  rcases h : db.any (gormStructCond m) with _ | _
  · rw [firstOrCreate_of_not_any m db h]
    simp [gormStructCond_self]
  · rw [firstOrCreate_of_any m db h]
    exact h

theorem firstOrCreate_any_mono (m m2 : Repo) (db : List Repo)
    (h : db.any (gormStructCond m2) = true) :
    (firstOrCreate m db).any (gormStructCond m2) = true := by
  rcases h2 : db.any (gormStructCond m) with _ | _
  · rw [firstOrCreate_of_not_any m db h2]
    simp [List.any_append, h]
  · rw [firstOrCreate_of_any m db h2]
    exact h

theorem scrape_any_mono (download : GithubRepository → Option (List Char)) :
    ∀ (repos : List GithubRepository) (db db1 : List Repo),
    ScrapeSpotguides download repos db = some db1 →
    ∀ m : Repo, db.any (gormStructCond m) = true → db1.any (gormStructCond m) = true
  | [], db, db1, h => by
    simp [ScrapeSpotguides] at h
    subst h
    exact fun m hm => hm
  | repository :: rest, db, db1, h => by
    intro m hm
    rcases ht : repository.topics.any (fun topic => topic == SpotguideGithubTopic)
      with _ | _
    · rw [ScrapeSpotguides, if_neg (by simp [ht])] at h
      exact scrape_any_mono download rest db db1 h m hm
    · rw [ScrapeSpotguides, if_pos (by simp [ht])] at h
      rcases hd : download repository with _ | raw
      · rw [hd] at h
        simp at h
      · rw [hd] at h
        exact scrape_any_mono download rest _ db1 h m
          (firstOrCreate_any_mono _ m db hm)

/-- C5: evaluation at the failing input. A row with the scraped name is
already persisted with different raw bytes; the struct Where of the upsert
call also matches on the raw bytes, so the existing row is left untouched
and a second row with the same name is inserted, against the documented
upsert by name (the Assign after a full field match is dead code, marking
the slip). -/
theorem C5_upsert_keyed_on_raw_eval :
    ScrapeSpotguides (fun _ => some "new manifest".data)
      [GithubRepository.mk "banzaicloud/spotguide-x".data [SpotguideGithubTopic]]
      [Repo.mk "banzaicloud/spotguide-x".data "old manifest".data] =
      some [Repo.mk "banzaicloud/spotguide-x".data "old manifest".data,
            Repo.mk "banzaicloud/spotguide-x".data "new manifest".data] := by
  decide

/-- C6: scraping twice with the same repository list and the same manifest
download results leaves the persisted row set of the first run unchanged. -/
theorem C6_rescrape_idempotent :
    ∀ (download : GithubRepository → Option (List Char))
      (repos : List GithubRepository) (db db1 : List Repo),
    ScrapeSpotguides download repos db = some db1 →
    ScrapeSpotguides download repos db1 = some db1 := by
  intro download repos
  induction repos with
  | nil =>
    intro db db1 h
    simp [ScrapeSpotguides] at h
    subst h
    simp [ScrapeSpotguides]
  | cons repository rest ih =>
    intro db db1 h
    rcases ht : repository.topics.any (fun topic => topic == SpotguideGithubTopic)
      with _ | _
    · rw [ScrapeSpotguides, if_neg (by simp [ht])] at h
      rw [ScrapeSpotguides, if_neg (by simp [ht])]
      exact ih db db1 h
    · rw [ScrapeSpotguides, if_pos (by simp [ht])] at h
      rw [ScrapeSpotguides, if_pos (by simp [ht])]
      rcases hd : download repository with _ | raw
      · rw [hd] at h
        simp at h
      · rw [hd] at h
        replace h : ScrapeSpotguides download rest
            (firstOrCreate (Repo.mk repository.fullName raw) db) = some db1 := h
        have h1 : db1.any (gormStructCond (Repo.mk repository.fullName raw)) = true :=
          scrape_any_mono download rest _ db1 h _
            (firstOrCreate_any_self (Repo.mk repository.fullName raw) db)
        show ScrapeSpotguides download rest
          (firstOrCreate (Repo.mk repository.fullName raw) db1) = some db1
        rw [firstOrCreate_of_any _ db1 h1]
        exact ih _ db1 h

/-- Witness for C6: a first scrape from an empty table, then the identical
second scrape leaving the table as it is. -/
theorem C6_witness :
    ScrapeSpotguides (fun _ => some "m".data)
      [GithubRepository.mk "org/a".data [SpotguideGithubTopic]]
      [Repo.mk "org/a".data "m".data] = some [Repo.mk "org/a".data "m".data] :=
  C6_rescrape_idempotent (fun _ => some "m".data)
    [GithubRepository.mk "org/a".data [SpotguideGithubTopic]]
    [] [Repo.mk "org/a".data "m".data] (by decide)

/-! ## Launch orchestrator (spotguide/spotguide.go, LaunchSpotguide and
createSecrets). External collaborators (token store, hosting service,
secret store, CI service) are outcome parameters; the secret store is
explicit state so that persistence across step failures is visible. -/

/-- secret.CreateSecretRequest fields used by the pipeline: name and tags. -/
structure CreateSecretRequest where
  name : List Char
  tags : List (List Char)
deriving DecidableEq

/-- LaunchRequest. -/
structure LaunchRequest where
  spotguideName : List Char
  repoOrganization : List Char
  repoName : List Char
  secrets : List CreateSecretRequest
deriving DecidableEq

/-- LaunchRequest.RepoFullname: organization, slash, name. -/
def LaunchRequest.RepoFullname (r : LaunchRequest) : List Char :=
  r.repoOrganization ++ '/' :: r.repoName

/-- Failing pipeline step identities, from the wrapped errors of
LaunchSpotguide; the secret step carries the offending secret name. -/
inductive LaunchError
  | findSpotguideFailed
  | secretCreationFailed (name : List Char)
  | repoCreationFailed
  | ciEnableFailed
deriving DecidableEq

/-- Outcomes of the external collaborators of one launch attempt: whether
the template lookup fails, which secret store calls fail, whether any sub
step of createGithubRepo fails and whether the CI enablement fails. -/
structure LaunchEnv where
  findFails : Bool
  storeFails : CreateSecretRequest → Bool
  createRepoFails : Bool
  enableCIFails : Bool

/-- The loop of createSecrets: append the repo tag to each requested secret
and store it under the organization, stopping with the name of the first
secret the store rejects; secrets stored before the failing one are kept. -/
def createSecretsLoop (storeFails : CreateSecretRequest → Bool)
    (repoTag : List Char) (orgID : Nat) :
    List CreateSecretRequest → List (Nat × CreateSecretRequest) →
      List (Nat × CreateSecretRequest) × Option (List Char)
  | [], store => (store, none)
  | secretRequest :: rest, store =>
    let tagged : CreateSecretRequest :=
      { secretRequest with tags := secretRequest.tags ++ [repoTag] }
    if storeFails tagged then (store, some secretRequest.name)
    else createSecretsLoop storeFails repoTag orgID rest (store ++ [(orgID, tagged)])

/-- createSecrets: the loop run with the repo correlation tag of the
request. -/
def createSecrets (storeFails : CreateSecretRequest → Bool)
    (request : LaunchRequest) (orgID : Nat)
    (store : List (Nat × CreateSecretRequest)) :
    List (Nat × CreateSecretRequest) × Option (List Char) :=
  createSecretsLoop storeFails ("repo:".data ++ request.RepoFullname) orgID
    request.secrets store

/-- LaunchSpotguide: resolve the template, create the secrets, create the
repository, enable CI, in this order, aborting on the first failure with
the wrapped step error and no compensation; the first component is the
secret store state at return. -/
def LaunchSpotguide (env : LaunchEnv) (request : LaunchRequest) (orgID : Nat)
    (store : List (Nat × CreateSecretRequest)) :
    List (Nat × CreateSecretRequest) × Except LaunchError Unit :=
  if env.findFails then (store, .error .findSpotguideFailed)
  else
    match createSecrets env.storeFails request orgID store with
    | (store1, some name) => (store1, .error (.secretCreationFailed name))
    | (store1, none) =>
      if env.createRepoFails then (store1, .error .repoCreationFailed)
      else if env.enableCIFails then (store1, .error .ciEnableFailed)
      else (store1, .ok ())

theorem createSecretsLoop_ok (storeFails : CreateSecretRequest → Bool)
    (repoTag : List Char) (orgID : Nat) :
    ∀ (secrets : List CreateSecretRequest)
      (store : List (Nat × CreateSecretRequest)),
    (createSecretsLoop storeFails repoTag orgID secrets store).2 = none →
    (createSecretsLoop storeFails repoTag orgID secrets store).1 =
      store ++ secrets.map (fun sr =>
        (orgID, { sr with tags := sr.tags ++ [repoTag] }))
  | [], store, _ => by simp [createSecretsLoop]
  | secretRequest :: rest, store, h => by
    rcases hf : storeFails
        { secretRequest with tags := secretRequest.tags ++ [repoTag] } with _ | _
    · rw [createSecretsLoop] at h ⊢
      simp only [hf, Bool.false_eq_true, if_false] at h ⊢
      rw [createSecretsLoop_ok storeFails repoTag orgID rest _ h]
      simp
    · rw [createSecretsLoop] at h
      simp only [hf, if_true] at h
      simp at h

/-- C2: when the template lookup and every secret store call succeed and the
repository creation step fails, the launch returns the repository creation
error (not success and not a secrets error) and the secret store still holds
every request secret, tagged with the destination repository: no
compensating deletion exists anywhere in the pipeline. -/
theorem C2_no_rollback_on_repo_failure :
    ∀ (env : LaunchEnv) (request : LaunchRequest) (orgID : Nat)
      (store : List (Nat × CreateSecretRequest)),
    env.findFails = false →
    (createSecrets env.storeFails request orgID store).2 = none →
    env.createRepoFails = true →
    (LaunchSpotguide env request orgID store).2 = .error .repoCreationFailed
  ∧ (LaunchSpotguide env request orgID store).1 =
      store ++ request.secrets.map (fun sr =>
        (orgID, { sr with
          tags := sr.tags ++ ["repo:".data ++ request.RepoFullname] })) := by
  intro env request orgID store hfind hsec hrepo
  have h1 : (createSecrets env.storeFails request orgID store).1 =
      store ++ request.secrets.map (fun sr =>
        (orgID, { sr with
          tags := sr.tags ++ ["repo:".data ++ request.RepoFullname] })) :=
    createSecretsLoop_ok env.storeFails ("repo:".data ++ request.RepoFullname)
      orgID request.secrets store hsec
  have key : LaunchSpotguide env request orgID store =
      ((createSecrets env.storeFails request orgID store).1,
        .error .repoCreationFailed) := by
    unfold LaunchSpotguide
    rcases hc : createSecrets env.storeFails request orgID store with ⟨store1, err⟩
    rw [hc] at hsec
    have herr : err = none := hsec
    subst herr
    simp [hfind, hrepo]
  rw [key]
  exact ⟨rfl, h1⟩

/-- Witness for C2: a concrete launch whose repository creation fails after
the single requested secret was stored; the secret is still in the store and
the error names the repository step. -/
theorem C2_witness :
    (LaunchSpotguide (LaunchEnv.mk false (fun _ => false) true false)
      (LaunchRequest.mk "banzaicloud/spotguide-nodejs-mongodb".data "acme".data
        "proj1".data [CreateSecretRequest.mk "DB_PASS".data []]) 1 []).2 =
      .error .repoCreationFailed
  ∧ (LaunchSpotguide (LaunchEnv.mk false (fun _ => false) true false)
      (LaunchRequest.mk "banzaicloud/spotguide-nodejs-mongodb".data "acme".data
        "proj1".data [CreateSecretRequest.mk "DB_PASS".data []]) 1 []).1 =
      [(1, CreateSecretRequest.mk "DB_PASS".data ["repo:acme/proj1".data])] := by
  have h := C2_no_rollback_on_repo_failure
    (LaunchEnv.mk false (fun _ => false) true false)
    (LaunchRequest.mk "banzaicloud/spotguide-nodejs-mongodb".data "acme".data
      "proj1".data [CreateSecretRequest.mk "DB_PASS".data []]) 1 []
    rfl (by decide) rfl
  refine ⟨h.1, ?_⟩
  rw [h.2]
  decide

end Pipeline
